import Mathlib

/-!
Shallow embedding of the goma-http-provider configuration resolution and
cache engine (`provider` package, `config` package) and proofs of the
specification claims about it.

Go `map[string]string` values are modelled as association lists in
insertion/iteration order; an assignment `m[k] = v` replaces the existing
binding (keys stay unique when a map is built only through `mapSet`),
and an indexing `m[k]` yields the zero value `""` when the key is absent,
exactly as in Go.  `time.Time` is modelled as a `Nat` (zero value `0`).
Errors (`error` results) are modelled as `Option String` / `Except String`.
-/

namespace GomaProvider

/-- Go `map[string]string` in iteration order. -/
abbrev SMap := List (String × String)

/-- Association-list lookup, models Go map access returning an `(value, ok)` pair. -/
def alGet? {α : Type} (m : List (String × α)) (k : String) : Option α :=
  match m with
  | [] => none
  | (k', v) :: rest => if k' == k then some v else alGet? rest k

/-- Go map indexing `m[k]` on a `map[string]string`: the bound value, or the
zero value `""` when the key is absent. -/
def mapGet (m : SMap) (k : String) : String :=
  (alGet? m k).getD ""

/-- Whether the map carries a binding for `k`. -/
def mapHasKey (m : SMap) (k : String) : Bool :=
  (alGet? m k).isSome

/-- Go map assignment `m[k] = v`: replaces the existing binding or appends a new one. -/
def alSet {α : Type} (m : List (String × α)) (k : String) (v : α) : List (String × α) :=
  match m with
  | [] => [(k, v)]
  | (k', v') :: rest => if k' == k then (k, v) :: rest else (k', v') :: alSet rest k v

/-- Go loop `for k, v := range src { dst[k] = v }` in `src`'s order. -/
def mapMerge (dst src : SMap) : SMap :=
  src.foldl (fun d p => alSet d p.1 p.2) dst

/-- `config.BasicAuth`. -/
structure BasicAuth where
  username : String
  password : String
deriving Repr, DecidableEq

/-- `config.HTTPAuth`; the Go `BasicAuth *BasicAuth` pointer is an `Option`. -/
structure HTTPAuth where
  apiKey : String
  basicAuth : Option BasicAuth
deriving Repr, DecidableEq

/-- `config.Configuration`: one declared configuration source. -/
structure Configuration where
  id : String
  directory : String
  auth : Option HTTPAuth
  Default : Bool
  metadata : SMap
deriving Repr, DecidableEq

/-- `models.Route`.  Its many payload fields are opaque to the engine (they are
only concatenated and compared); the embedding carries the identifying fields. -/
structure Route where
  name : String
  path : String
  target : String
deriving Repr, DecidableEq

/-- `models.Middleware`; the loosely-typed `Rule` payload is carried as an
opaque string. -/
structure Middleware where
  name : String
  mtype : String
  rule : String
deriving Repr, DecidableEq

/-- `config.ConfigBundle`.  `timestamp` models the Go `time.Time` field
(zero value `0`). -/
structure ConfigBundle where
  version : String
  routes : List Route
  middlewares : List Middleware
  metadata : SMap
  checksum : String
  timestamp : Nat
deriving Repr, DecidableEq

/-- `provider.CachedConfig`. -/
structure CachedConfig where
  bundle : ConfigBundle
  expiresAt : Nat
  etag : String
deriving Repr, DecidableEq

/-- The mutable state of `provider.HTTPProvider`: the static configuration list
(whose `ID` fields `initialize` mutates in place), the cache map, the default
id, the last reload timestamp and the merged metadata map. -/
structure ProviderState where
  configurations : List Configuration
  cache : List (String × CachedConfig)
  defaultID : String
  lastReload : Nat
  metadata : SMap
deriving Repr, DecidableEq

/-- Model of `strings.Join` (an external library function): the elements
separated by `sep`. -/
def strJoin (sep : String) : List String → String
  | [] => ""
  | [x] => x
  | x :: rest => x ++ sep ++ strJoin sep rest

/-- Lower-casing of one character, as `strings.ToLower` does on ASCII input
(the metadata keys and values of this engine). -/
def charLower (c : Char) : Char :=
  if 65 ≤ c.toNat ∧ c.toNat ≤ 90 then Char.ofNat (c.toNat + 32) else c

/-- Model of `strings.ToLower` (an external library function): lower-case
every character. -/
def strToLower (s : String) : String :=
  String.mk (s.data.map charLower)

/-- `HTTPProvider.BuildCacheKey`: `"default"` for an empty map, otherwise the
`k=v` pairs in the map's iteration order joined with `&` and lower-cased.
The list order of the `SMap` models Go's (unspecified, randomized) map
iteration order. -/
def BuildCacheKey (metadata : SMap) : String :=
  if metadata.length = 0 then "default"
  else strToLower (strJoin "&" (metadata.map (fun p => p.1 ++ "=" ++ p.2)))

/-- The incoming HTTP request, reduced to what `Authenticate` reads: the header
map (for `r.Header.Get ("X-API-Key")`, absent headers read as `""`) and the
decoded `Authorization` basic credentials (`r.BasicAuth ()`, `none` when the
header is missing or malformed, i.e. `ok = false`). -/
structure Request where
  headers : SMap
  basic : Option BasicAuth
deriving Repr, DecidableEq

/-- `HTTPProvider.Authenticate`, mirroring the Go control flow exactly:
`nil` auth passes; `nil` BasicAuth passes immediately (before any API-key
check); otherwise a matching API key passes, then matching basic credentials
pass, else an error is returned.  `none` is success, `some e` the error. -/
def Authenticate (r : Request) (cfg : Configuration) : Option String :=
  match cfg.auth with
  | none => none
  | some a =>
    match a.basicAuth with
    | none => none
    | some ba =>
      if a.apiKey != "" && mapGet r.headers "X-API-Key" == a.apiKey then none
      else if ba.username != "" &&
          (match r.basic with
           | some c => c.username == ba.username && c.password == ba.password
           | none => false) then none
      else some ("authentication failed for config " ++ cfg.id)

/-- Byte-wise lexicographic string order, the order `encoding/json` sorts map
keys by. -/
def charListLe : List Char → List Char → Bool
  | [], _ => true
  | _ :: _, [] => false
  | a :: as, b :: bs =>
    if a.toNat < b.toNat then true
    else if b.toNat < a.toNat then false
    else charListLe as bs

/-- Byte-wise `a ≤ b` on strings. -/
def strLe (a b : String) : Bool :=
  charListLe a.data b.data

/-- Metadata as Go's `encoding/json` marshals a `map[string]string`: entries
sorted by key (insertion sort). -/
def insertByKey (p : String × String) : SMap → SMap
  | [] => [p]
  | q :: rest => if strLe p.1 q.1 then p :: q :: rest else q :: insertByKey p rest

/-- Key-sorted form of a metadata map, the canonical order used by
`encoding/json` when serializing Go maps. -/
def canonMeta (m : SMap) : SMap :=
  m.foldr insertByKey []

/-- Serialization of one route record, as `json.Marshal` renders it inside
`calculateChecksum`'s input. -/
def encodeRoute (r : Route) : String :=
  "[name:" ++ r.name ++ ",path:" ++ r.path ++ ",target:" ++ r.target ++ "]"

/-- Serialization of one middleware record. -/
def encodeMiddleware (m : Middleware) : String :=
  "[name:" ++ m.name ++ ",type:" ++ m.mtype ++ ",rule:" ++ m.rule ++ "]"

/-- Serialization of a metadata map: `encoding/json` emits map entries in
key-sorted order, independent of iteration order. -/
def encodeMeta (m : SMap) : String :=
  strJoin "," ((canonMeta m).map (fun p => p.1 ++ ":" ++ p.2))

/-- `json.Marshal` of a `ConfigBundle`, one field after another in struct
order.  All six fields are rendered; `calculateChecksum` zeroes `checksum`
and `timestamp` before marshalling. -/
def encodeBundle (b : ConfigBundle) : String :=
  "version:" ++ b.version ++
  ";routes:" ++ strJoin "," (b.routes.map encodeRoute) ++
  ";middlewares:" ++ strJoin "," (b.middlewares.map encodeMiddleware) ++
  ";metadata:" ++ encodeMeta b.metadata ++
  ";checksum:" ++ b.checksum ++
  ";timestamp:" ++ toString b.timestamp

/-- Model of the external `sha256` + `hex.EncodeToString` digest pipeline:
the cryptographic hash library is outside this repository, so it is modelled
as a concrete deterministic fold over the serialized bytes, rendered in
lowercase hexadecimal. -/
def hashHex (s : String) : String :=
  let h := s.data.foldl (fun a c => (a * 131 + c.toNat) % 1000000007) 5381
  String.mk (Nat.toDigits 16 h)

/-- `HTTPProvider.calculateChecksum`: copy the bundle, blank the `Checksum`
field, zero the `Timestamp` field, marshal the copy and hash the bytes. -/
def calculateChecksum (b : ConfigBundle) : String :=
  hashHex (encodeBundle { b with checksum := "", timestamp := 0 })

/-- Outcome of reading and parsing one file's bytes.  `os.ReadFile` and the
`yaml`/`json` unmarshallers are external collaborators; a file entry records
whether the read fails, the parse fails, or which fragment the parse yields. -/
inductive FileData where
  | unreadable
  | malformed
  | parsed (fragment : ConfigBundle)
deriving Repr, DecidableEq

/-- One entry delivered by `filepath.Walk` under a configuration directory. -/
structure FSFile where
  path : String
  isDir : Bool
  data : FileData
deriving Repr, DecidableEq

/-- Splitting a character list on a separator, keeping empty groups (the
behavior of `strings.Split` / `String.splitOn` on single-character
separators). -/
def splitOnChar (sep : Char) : List Char → List (List Char)
  | [] => [[]]
  | c :: rest =>
    let r := splitOnChar sep rest
    if c == sep then [] :: r
    else
      match r with
      | [] => [[c]]
      | g :: gs => (c :: g) :: gs

/-- `filepath.Ext`: the suffix beginning at the final dot of the final path
element, empty when that element has no dot. -/
def fileExt (path : String) : String :=
  let base := (splitOnChar '/' path.data).getLastD []
  match splitOnChar '.' base with
  | [] => ""
  | [_] => ""
  | parts => String.mk ('.' :: parts.getLastD [])

/-- Whether the lower-cased extension is one of the recognized formats. -/
def recognizedExt (e : String) : Bool :=
  e == ".yaml" || e == ".yml" || e == ".json"

/-- The walk callback body of `loadConfigFromDirectory` for one entry:
directories and unrecognized extensions are skipped, a read or parse failure
aborts with an error, and a parsed fragment is merged into the bundle
(routes and middlewares concatenated, metadata keys last-write-wins). -/
def mergeStep (bundle : ConfigBundle) (f : FSFile) : Except String ConfigBundle :=
  if f.isDir then .ok bundle
  else if !(recognizedExt (strToLower (fileExt f.path))) then .ok bundle
  else
    match f.data with
    | .unreadable => .error ("failed to read " ++ f.path)
    | .malformed => .error ("failed to parse " ++ f.path)
    | .parsed temp =>
      .ok { bundle with
              routes := bundle.routes ++ temp.routes,
              middlewares := bundle.middlewares ++ temp.middlewares,
              metadata := mapMerge bundle.metadata temp.metadata }

/-- The sequential visit of `filepath.Walk`: entries are processed in
traversal order and the first error aborts the whole walk. -/
def loadLoop (bundle : ConfigBundle) : List FSFile → Except String ConfigBundle
  | [] => .ok bundle
  | f :: rest =>
    match mergeStep bundle f with
    | .error e => .error e
    | .ok b => loadLoop b rest

/-- The empty bundle `loadConfigFromDirectory` starts from. -/
def emptyBundle : ConfigBundle :=
  { version := "1.0", routes := [], middlewares := [], metadata := [],
    checksum := "", timestamp := 0 }

/-- `HTTPProvider.loadConfigFromDirectory`, over the directory's walked
entries: merge every recognized file into a fresh bundle, aborting on the
first read or parse failure (no partial bundle is returned on error). -/
def loadConfigFromDirectory (files : List FSFile) : Except String ConfigBundle :=
  loadLoop emptyBundle files

/-- The inner scoring loop of `HTTPProvider.matchConfiguration`: the number of
request-metadata pairs `(k, v)` with `cfg.Metadata[k] == v`, where the map
lookup yields `""` for an absent key, as in Go. -/
def configScore (requestMeta : SMap) (cfg : Configuration) : Nat :=
  match requestMeta with
  | [] => 0
  | (k, v) :: rest =>
    (if mapGet cfg.metadata k == v then 1 else 0) + configScore rest cfg

/-- The best-candidate scan of `matchConfiguration`, carrying the Go loop's
two variables `best` and `bestScore`: a source replaces the running best only
when its score is strictly greater. -/
def bestMatch (md : SMap) : Option Configuration → Nat → List Configuration →
    Option Configuration × Nat
  | best, bestScore, [] => (best, bestScore)
  | best, bestScore, cfg :: rest =>
    let s := configScore md cfg
    if bestScore < s then bestMatch md (some cfg) s rest
    else bestMatch md best bestScore rest

/-- `HTTPProvider.matchConfiguration`: scan all sources keeping the first
strictly-higher score (starting from score 0, so only positive scores win);
when nothing scored, fall back to the source whose id equals the non-empty
default id, or `none`. -/
def matchConfiguration (cfgs : List Configuration) (defaultID : String)
    (metadata : SMap) : Option Configuration :=
  match (bestMatch metadata none 0 cfgs).1 with
  | some best => some best
  | none =>
    if defaultID != "" then cfgs.find? (fun c => c.id == defaultID) else none

/-- `HTTPProvider.GetConfig`: resolve the request metadata to a source, then
look its bundle up in the cache; either step can fail. -/
def GetConfig (p : ProviderState) (metadata : SMap) :
    Except String (ConfigBundle × Configuration) :=
  match matchConfiguration p.configurations p.defaultID metadata with
  | none => .error "no configuration matched metadata"
  | some cfg =>
    match alGet? p.cache cfg.id with
    | none => .error ("config " ++ cfg.id ++ " not loaded")
    | some cached => .ok (cached.bundle, cfg)

/-- The per-source loop of `HTTPProvider.initialize`, acting on the state the
way the Go code mutates the provider in place: `fs` maps a directory to its
walked entries, `now` models `time.Now()`, `seen` the `seenIDs` set, `done`
the already-processed (id-rewritten) configurations in reverse order.  On an
error the function returns the state as mutated so far together with the
error — the cache entries already written stay written and `lastReload` is
only stamped after the loop completes. -/
def initLoop (fs : String → List FSFile) (now : Nat) :
    ProviderState → List String → List Configuration → List Configuration →
    ProviderState × Option String
  | p, _, done, [] =>
    ({ p with configurations := done.reverse, lastReload := now }, none)
  | p, seen, done, cfg :: rest =>
    let cfg := { cfg with id := BuildCacheKey cfg.metadata }
    if cfg.id == "" then
      ({ p with configurations := done.reverse ++ cfg :: rest },
       some "configuration id is required")
    else if seen.contains cfg.id then
      ({ p with configurations := done.reverse ++ cfg :: rest },
       some ("duplicate configuration id: " ++ cfg.id))
    else
      match loadConfigFromDirectory (fs cfg.directory) with
      | .error e =>
        ({ p with configurations := done.reverse ++ cfg :: rest },
         some ("failed to load config " ++ cfg.id ++ ": " ++ e))
      | .ok bundle =>
        let bundle := { bundle with metadata := mapMerge bundle.metadata cfg.metadata }
        let p := { p with metadata := mapMerge p.metadata cfg.metadata }
        let checksum := calculateChecksum bundle
        let bundle := { bundle with checksum := checksum, timestamp := now }
        let entry : CachedConfig :=
          { bundle := bundle, expiresAt := now + 300, etag := checksum }
        let p := { p with cache := alSet p.cache cfg.id entry }
        let p := if cfg.Default then { p with defaultID := cfg.id } else p
        initLoop fs now p (cfg.id :: seen) (cfg :: done) rest

/-- `HTTPProvider.initialize` (also the body of `HTTPProvider.Reload`): under
the reload lock, replace the live cache map with a fresh empty one, then
process every configuration in order, publishing each rebuilt entry into the
shared cache as it is produced.  `defaultID` and the merged `metadata` map are
not reset.  Returns the resulting state and the error, if any. -/
def initProvider (fs : String → List FSFile) (now : Nat) (p : ProviderState) :
    ProviderState × Option String :=
  initLoop fs now { p with cache := [] } [] [] p.configurations

/-- `HTTPProvider.Reload` simply re-runs `initialize` on the live provider. -/
def Reload (fs : String → List FSFile) (now : Nat) (p : ProviderState) :
    ProviderState × Option String :=
  initProvider fs now p

/-- The cache states observable by concurrent readers during one run of
`HTTPProvider.initialize`: the Go code holds `cacheMu` only while clearing the
map and while inserting each single entry, so readers may run right after the
clear and after every insertion.  This lists the cache as it stands at each
such release point, mirroring the successful path of `initLoop` (an error
stops the loop, so no further snapshots appear). -/
def snapshotLoop (fs : String → List FSFile) (now : Nat) :
    List (String × CachedConfig) → List String → List Configuration →
    List (List (String × CachedConfig))
  | _, _, [] => []
  | cache, seen, cfg :: rest =>
    let cfg := { cfg with id := BuildCacheKey cfg.metadata }
    if cfg.id == "" then []
    else if seen.contains cfg.id then []
    else
      match loadConfigFromDirectory (fs cfg.directory) with
      | .error _ => []
      | .ok bundle =>
        let bundle := { bundle with metadata := mapMerge bundle.metadata cfg.metadata }
        let checksum := calculateChecksum bundle
        let bundle := { bundle with checksum := checksum, timestamp := now }
        let entry : CachedConfig :=
          { bundle := bundle, expiresAt := now + 300, etag := checksum }
        let cache := alSet cache cfg.id entry
        cache :: snapshotLoop fs now cache (cfg.id :: seen) rest

/-- All reader-observable cache states during `initialize`: the empty cache
right after the clear, then the cache after each published entry. -/
def initCacheSnapshots (fs : String → List FSFile) (now : Nat)
    (p : ProviderState) : List (List (String × CachedConfig)) :=
  [] :: snapshotLoop fs now [] [] p.configurations

/-- The loop of `Config.validate` (config.go): `dirExists` models `os.Stat`
on a directory path, `i` the index in the error messages, `dcount` the
running `defaultCount`.  The `hasApiKeyAuth`/`hasBasicAuth` flags set along
the way only feed the OpenAPI docs and are omitted. -/
def validateLoop (dirExists : String → Bool) :
    List Configuration → Nat → Nat → Option String
  | [], _, dcount =>
    if dcount > 1 then some "only one configuration can be marked as default"
    else none
  | cfg :: rest, i, dcount =>
    if cfg.directory == "" then
      some ("configuration[" ++ toString i ++ "]: directory is required")
    else if !(dirExists cfg.directory) then
      some ("configuration[" ++ toString i ++ "]: directory does not exist: "
            ++ cfg.directory)
    else
      match cfg.auth with
      | some a =>
        match a.basicAuth with
        | some ba =>
          if ba.username == "" || ba.password == "" then
            some "error, basic auth, username or password missing"
          else validateLoop dirExists rest (i + 1)
                 (dcount + if cfg.Default then 1 else 0)
        | none => validateLoop dirExists rest (i + 1)
                    (dcount + if cfg.Default then 1 else 0)
      | none => validateLoop dirExists rest (i + 1)
                  (dcount + if cfg.Default then 1 else 0)

/-- `Config.validate`: reject an empty configuration list, then run the
per-configuration checks, and finally reject more than one default source.
Runs once at startup (from `Config.initialize`, called by `config.New` in
`main` before the provider index is ever built). -/
def validate (dirExists : String → Bool) (cfgs : List Configuration) :
    Option String :=
  if cfgs.length = 0 then some "at least one configuration is required"
  else validateLoop dirExists cfgs 0 0

/-- A fresh provider right after `NewHTTPProvider` allocates it, before its
initial load: empty cache, empty merged metadata, no default id. -/
def freshState (cfgs : List Configuration) : ProviderState :=
  { configurations := cfgs, cache := [], defaultID := "", lastReload := 0,
    metadata := [] }

/-- Source `A{env:prod}` of the spec's worked example. -/
def cfgA : Configuration :=
  { id := "", directory := "/configs/prod", auth := none, Default := false,
    metadata := [("env", "prod")] }

/-- Source `B{env:staging}`. -/
def cfgB : Configuration :=
  { id := "", directory := "/configs/staging", auth := none, Default := false,
    metadata := [("env", "staging")] }

/-- The default source `D{}` with no declared metadata. -/
def cfgD : Configuration :=
  { id := "", directory := "/configs/dev", auth := none, Default := true,
    metadata := [] }

/-- A filesystem of empty directories: every directory walk yields no entries,
so every load succeeds with the empty bundle. -/
def emptyFS : String → List FSFile := fun _ => []

/-- One well-formed route fragment served from the production directory. -/
def prodFragment : ConfigBundle :=
  { version := "", middlewares := [], metadata := [], checksum := "",
    timestamp := 0,
    routes := [{ name := "r1", path := "/", target := "http://upstream" }] }

/-- A healthy filesystem: the production directory holds one parseable YAML
fragment, all other directories are empty. -/
def goodFS : String → List FSFile := fun d =>
  if d == "/configs/prod" then
    [{ path := "/configs/prod/routes.yaml", isDir := false,
       data := .parsed prodFragment }]
  else []

/-- The same filesystem after the production fragment has been corrupted:
its YAML no longer parses. -/
def badFS : String → List FSFile := fun d =>
  if d == "/configs/prod" then
    [{ path := "/configs/prod/routes.yaml", isDir := false,
       data := .malformed }]
  else []

/-- Provider state after a successful startup load of sources `A` and `B`
against the healthy filesystem. -/
def demoState : ProviderState :=
  (initProvider goodFS 5 (freshState [cfgA, cfgB])).1

/-- Provider state after a successful startup load of `A`, `B` and the
default `D` against empty directories. -/
def exampleState : ProviderState :=
  (initProvider emptyFS 3 (freshState [cfgA, cfgB, cfgD])).1

/-- Like `exampleState` but without any default source. -/
def noDefaultState : ProviderState :=
  (initProvider emptyFS 3 (freshState [cfgA, cfgB])).1

/-- Source `A` as it appears in the published index, its id rewritten to its
derived key. -/
def cfgAResolved : Configuration := { cfgA with id := "env=prod" }

/-- Source `D` as it appears in the published index. -/
def cfgDResolved : Configuration := { cfgD with id := "default" }

/-- A source protected only by an API key: auth present, no basic auth. -/
def cfgApiOnly : Configuration :=
  { id := "env=api", directory := "/configs/api",
    auth := some { apiKey := "secret", basicAuth := none },
    Default := false, metadata := [("env", "api")] }

/-- A bundle with routes, metadata, a stored checksum and a load timestamp. -/
def bundleOne : ConfigBundle :=
  { version := "1.0",
    routes := [{ name := "r1", path := "/", target := "http://upstream" }],
    middlewares := [{ name := "m1", mtype := "rateLimit", rule := "10rps" }],
    metadata := [("x", "1"), ("y", "2")], checksum := "deadbeef",
    timestamp := 10 }

/-- The same logical content as `bundleOne`: metadata entries in the other
iteration order, and different `checksum` and `timestamp` fields. -/
def bundleTwo : ConfigBundle :=
  { bundleOne with
    metadata := [("y", "2"), ("x", "1")]
    checksum := "cafe"
    timestamp := 99 }

/-- C3: for every source whose auth requirement is present but carries no
basic-auth credentials, `Authenticate` succeeds for every request — the
`BasicAuth == nil` early return fires before the API key is ever compared,
so a configured non-empty API key is never checked for such a source. -/
theorem authenticate_ignores_api_key_without_basic_auth
    (r : Request) (cfg : Configuration) (a : HTTPAuth)
    (hauth : cfg.auth = some a) (hkey : a.apiKey ≠ "")
    (hba : a.basicAuth = none) :
    Authenticate r cfg = none := by
  simp [Authenticate, hauth, hba]

/-- Witness for C3: the API-key-only source accepts a request with a wrong
`X-API-Key` header and a request with no such header at all. -/
theorem authenticate_ignores_api_key_without_basic_auth_witness :
    Authenticate { headers := [("X-API-Key", "wrong")], basic := none }
      cfgApiOnly = none
    ∧ Authenticate { headers := [], basic := none } cfgApiOnly = none :=
  ⟨authenticate_ignores_api_key_without_basic_auth _ cfgApiOnly _ rfl
      (by decide) rfl,
   authenticate_ignores_api_key_without_basic_auth _ cfgApiOnly _ rfl
      (by decide) rfl⟩

/-- C4 (refuting the claim): two metadata maps with equal key-value content —
one a permutation of the other — yield different cache keys, because
`BuildCacheKey` concatenates the pairs in map iteration order without
sorting, and Go's map iteration order is unspecified. -/
theorem buildCacheKey_depends_on_iteration_order :
    List.Perm ([("a", "1"), ("b", "2")] : SMap) [("b", "2"), ("a", "1")]
    ∧ BuildCacheKey [("a", "1"), ("b", "2")]
        ≠ BuildCacheKey [("b", "2"), ("a", "1")] := by
  exact ⟨by decide, by decide⟩

/-- C7: the fingerprint is computed over `{version, routes, middlewares,
metadata}` only — `calculateChecksum` blanks the `Checksum` field and zeroes
the `Timestamp` field of its working copy before marshalling, so two bundles
with equal content in those four fields (metadata compared as maps, i.e. up
to iteration order, as `encoding/json` sorts map keys) hash identically even
when their stored checksum and load timestamp differ. -/
theorem fingerprint_ignores_checksum_and_timestamp (b1 b2 : ConfigBundle)
    (hv : b1.version = b2.version) (hr : b1.routes = b2.routes)
    (hm : b1.middlewares = b2.middlewares)
    (hmd : canonMeta b1.metadata = canonMeta b2.metadata) :
    calculateChecksum b1 = calculateChecksum b2 := by
  simp only [calculateChecksum, encodeBundle, encodeMeta, hv, hr, hm, hmd]

/-- Witness for C7: `bundleOne` and `bundleTwo` differ in their `checksum`
and `timestamp` fields (and in metadata iteration order) yet fingerprint
identically. -/
theorem fingerprint_ignores_checksum_and_timestamp_witness :
    calculateChecksum bundleOne = calculateChecksum bundleTwo
    ∧ bundleOne.checksum ≠ bundleTwo.checksum
    ∧ bundleOne.timestamp ≠ bundleTwo.timestamp :=
  ⟨fingerprint_ignores_checksum_and_timestamp bundleOne bundleTwo rfl rfl rfl
      (by decide),
   by decide, by decide⟩

/-- C1 (refuting the claim): `Reload` runs `initialize`, which replaces the
live cache with a fresh empty map before loading anything.  When the
production fragment fails to parse, the reload returns the load error and
leaves `lastReload` alone — but the previously published index is gone: the
cache that held both sources is now empty, and a `GetConfig` that succeeded
before the attempt now fails with the internal "not loaded" error. -/
theorem reload_failure_corrupts_live_index :
    (Reload badFS 9 demoState).2 =
      some "failed to load config env=prod: failed to parse /configs/prod/routes.yaml"
    ∧ (Reload badFS 9 demoState).1.lastReload = demoState.lastReload
    ∧ (GetConfig demoState [("env", "prod")]).toOption.isSome = true
    ∧ demoState.cache ≠ []
    ∧ (Reload badFS 9 demoState).1.cache = []
    ∧ GetConfig (Reload badFS 9 demoState).1 [("env", "prod")] =
        .error "config env=prod not loaded" :=
  ⟨rfl, rfl, rfl, by decide, rfl, rfl⟩

/-- C2 (refuting the claim): the rebuilt cache is not published in one atomic
step.  `initialize` clears the shared map and re-inserts entries one at a
time, releasing `cacheMu` between operations, so a concurrent `GetConfig`
can observe the empty cache, or a cache holding the new `env=prod` entry but
no `env=staging` entry — states that are neither the complete pre-reload
index nor the complete post-reload index (both of which contain
`env=staging`), even though this reload succeeds. -/
theorem reload_exposes_partial_cache_to_readers :
    (initCacheSnapshots goodFS 9 demoState).get? 0 = some []
    ∧ ((initCacheSnapshots goodFS 9 demoState).get? 1).map
        (fun c => mapHasKey (c.map (fun e => (e.1, e.2.etag))) "env=prod") = some true
    ∧ ((initCacheSnapshots goodFS 9 demoState).get? 1).map
        (fun c => mapHasKey (c.map (fun e => (e.1, e.2.etag))) "env=staging") = some false
    ∧ (alGet? demoState.cache "env=staging").isSome = true
    ∧ (Reload goodFS 9 demoState).2 = none
    ∧ (alGet? (Reload goodFS 9 demoState).1.cache "env=staging").isSome = true :=
  ⟨rfl, rfl, rfl, rfl, rfl, rfl⟩

/-- A configuration list in which both sources are marked default. -/
def twoDefaults : List Configuration :=
  [{ cfgA with Default := true }, { cfgB with Default := true }]

/-- C9 (refuting the claim): the provider's index build (`initialize`, run at
startup by `NewHTTPProvider` and again on every `Reload`) performs no
default-count validation at all — handed a list with two default sources it
succeeds without error and silently lets the last default win. -/
theorem index_build_skips_default_count_validation :
    2 ≤ twoDefaults.countP (fun c => c.Default)
    ∧ (initProvider emptyFS 3 (freshState twoDefaults)).2 = none
    ∧ (initProvider emptyFS 3 (freshState twoDefaults)).1.defaultID
        = "env=staging" :=
  ⟨by decide, rfl, rfl⟩

/-- If the `validate` loop returns no error, the defaults counted so far plus
those remaining never exceed one. -/
theorem validateLoop_none_default_count (dirExists : String → Bool) :
    ∀ (cfgs : List Configuration) (i dcount : Nat),
      validateLoop dirExists cfgs i dcount = none →
      cfgs.countP (fun c => c.Default) + dcount ≤ 1 := by
  intro cfgs
  induction cfgs with
  | nil =>
    intro i dcount h
    simp only [validateLoop] at h
    split at h
    · exact absurd h (by simp)
    · simp only [List.countP_nil]
      omega
  | cons cfg rest ih =>
    intro i dcount h
    simp only [validateLoop] at h
    split at h
    · exact absurd h (by simp)
    · split at h
      · exact absurd h (by simp)
      · have key : rest.countP (fun c => c.Default)
            + (dcount + if cfg.Default then 1 else 0) ≤ 1 := by
          split at h
          · split at h
            · split at h
              · exact absurd h (by simp)
              · exact ih _ _ h
            · exact ih _ _ h
          · exact ih _ _ h
        rw [List.countP_cons]
        omega

/-- C9 (amended): the default-count invariant is enforced by `Config.validate`
alone, which `config.New` runs once at startup, before `main` ever constructs
the provider: any configuration list with more than one default source makes
`validate` return an error, so no provider index is built from it at startup.
(The reload path never re-validates, but it reuses the same in-memory list
the startup validation accepted.) -/
theorem startup_validation_rejects_multiple_defaults
    (dirExists : String → Bool) (cfgs : List Configuration)
    (h : 2 ≤ cfgs.countP (fun c => c.Default)) :
    validate dirExists cfgs ≠ none := by
  intro hnone
  unfold validate at hnone
  split at hnone
  · exact absurd hnone (by simp)
  · have := validateLoop_none_default_count dirExists cfgs 0 0 hnone
    omega

/-- Witness for the amended C9: startup validation rejects the two-default
list that the reload-time index build accepted. -/
theorem startup_validation_rejects_multiple_defaults_witness :
    validate (fun _ => true) twoDefaults ≠ none :=
  startup_validation_rejects_multiple_defaults (fun _ => true) twoDefaults
    (by decide)

/-- Whether `loadConfigFromDirectory` processes this entry: a non-directory
file with a recognized (`.yaml`/`.yml`/`.json`) extension. -/
def fileProcessed (f : FSFile) : Bool :=
  !f.isDir && recognizedExt (strToLower (fileExt f.path))

/-- Whether this entry makes the load fail: a processed file whose read or
parse fails. -/
def fileFails (f : FSFile) : Bool :=
  fileProcessed f &&
    (match f.data with
     | .parsed _ => false
     | _ => true)

/-- Unpacking `fileProcessed`: not a directory, recognized extension. -/
theorem fileProcessed_spec (f : FSFile) (h : fileProcessed f = true) :
    f.isDir = false ∧ recognizedExt (strToLower (fileExt f.path)) = true := by
  unfold fileProcessed at h
  obtain ⟨h1, h2⟩ := (Bool.and_eq_true _ _).mp h
  exact ⟨by simpa using h1, h2⟩

/-- A skipped entry (directory or unrecognized extension) leaves the bundle
untouched. -/
theorem mergeStep_skip (b : ConfigBundle) (f : FSFile)
    (h : fileProcessed f = false) : mergeStep b f = .ok b := by
  unfold fileProcessed at h
  rcases hd : f.isDir with _ | _
  · rw [hd] at h
    simp at h
    simp [mergeStep, hd, h]
  · simp [mergeStep, hd]

/-- A failing processed entry produces an error. -/
theorem mergeStep_fails (b : ConfigBundle) (f : FSFile)
    (h : fileFails f = true) : ∃ e, mergeStep b f = .error e := by
  unfold fileFails at h
  obtain ⟨hp, hdata⟩ := (Bool.and_eq_true _ _).mp h
  obtain ⟨hd, hrec⟩ := fileProcessed_spec f hp
  rcases hfd : f.data with _ | _ | frag
  · exact ⟨"failed to read " ++ f.path, by simp [mergeStep, hd, hrec, hfd]⟩
  · exact ⟨"failed to parse " ++ f.path, by simp [mergeStep, hd, hrec, hfd]⟩
  · rw [hfd] at hdata
    simp at hdata

/-- A non-failing entry always produces an updated bundle, never an error. -/
theorem mergeStep_ok (b : ConfigBundle) (f : FSFile)
    (h : fileFails f = false) : ∃ b', mergeStep b f = .ok b' := by
  rcases hp : fileProcessed f with _ | _
  · exact ⟨b, mergeStep_skip b f hp⟩
  · have hdata : (match f.data with
        | .parsed _ => false
        | _ => true) = false := by
      unfold fileFails at h
      rw [hp] at h
      simpa using h
    obtain ⟨hd, hrec⟩ := fileProcessed_spec f hp
    rcases hfd : f.data with _ | _ | frag
    · rw [hfd] at hdata
      simp at hdata
    · rw [hfd] at hdata
      simp at hdata
    · refine ⟨{ b with
        routes := b.routes ++ frag.routes
        middlewares := b.middlewares ++ frag.middlewares
        metadata := mapMerge b.metadata frag.metadata }, ?_⟩
      simp [mergeStep, hd, hrec, hfd]

/-- If any entry of the walk fails, the whole fold ends in an error, whatever
bundle it started from. -/
theorem loadLoop_error_of_fails (files : List FSFile)
    (h : files.any fileFails = true) :
    ∀ b, ∃ e, loadLoop b files = .error e := by
  induction files with
  | nil => simp at h
  | cons f rest ih =>
    intro b
    rcases hf : fileFails f with _ | _
    · rw [List.any_cons, hf, Bool.false_or] at h
      obtain ⟨b', hb'⟩ := mergeStep_ok b f hf
      obtain ⟨e, he⟩ := ih h b'
      exact ⟨e, by simp [loadLoop, hb', he]⟩
    · obtain ⟨e, he⟩ := mergeStep_fails b f hf
      exact ⟨e, by simp [loadLoop, he]⟩

/-- Entries that are not processed can be dropped without changing the fold's
outcome. -/
theorem loadLoop_filter (files : List FSFile) :
    ∀ b, loadLoop b files = loadLoop b (files.filter fileProcessed) := by
  induction files with
  | nil => intro b; rfl
  | cons f rest ih =>
    intro b
    rcases hp : fileProcessed f with _ | _
    · rw [List.filter_cons_of_neg (by simp [hp])]
      rw [loadLoop, mergeStep_skip b f hp]
      exact ih b
    · rw [List.filter_cons_of_pos (by simp [hp])]
      rw [loadLoop, loadLoop]
      rcases hm : mergeStep b f with e | b'
      · rfl
      · exact ih b'

/-- C8: `Load(directory)` fails — returning an error and no partial bundle —
whenever any recognized (`.yaml`/`.yml`/`.json`) file under the directory
cannot be read or fails to parse: a single bad fragment aborts the entire
directory load.  Entries with other extensions (and subdirectory entries) are
skipped silently: dropping them from the walk leaves the result unchanged. -/
theorem load_aborts_on_any_bad_fragment (files : List FSFile) :
    (files.any fileFails = true →
      ∃ e, loadConfigFromDirectory files = .error e)
    ∧ loadConfigFromDirectory files
        = loadConfigFromDirectory (files.filter fileProcessed) := by
  constructor
  · intro h
    exact loadLoop_error_of_fails files h emptyBundle
  · exact loadLoop_filter files emptyBundle

/-- Witness for C8: a directory with one good YAML file, one malformed JSON
file and one silently-skipped text file fails to load as a whole, and the
text file plays no part in the outcome. -/
theorem load_aborts_on_any_bad_fragment_witness :
    (∃ e, loadConfigFromDirectory
        [{ path := "/d/ok.yaml", isDir := false, data := .parsed prodFragment },
         { path := "/d/broken.json", isDir := false, data := .malformed },
         { path := "/d/notes.txt", isDir := false, data := .unreadable }]
      = .error e)
    ∧ loadConfigFromDirectory
        [{ path := "/d/ok.yaml", isDir := false, data := .parsed prodFragment },
         { path := "/d/broken.json", isDir := false, data := .malformed },
         { path := "/d/notes.txt", isDir := false, data := .unreadable }]
      = loadConfigFromDirectory
        (List.filter fileProcessed
          [{ path := "/d/ok.yaml", isDir := false, data := .parsed prodFragment },
           { path := "/d/broken.json", isDir := false, data := .malformed },
           { path := "/d/notes.txt", isDir := false, data := .unreadable }]) :=
  ⟨(load_aborts_on_any_bad_fragment _).1 (by decide),
   (load_aborts_on_any_bad_fragment _).2⟩

/-- The scan never updates its accumulator when no remaining source beats the
running best score. -/
theorem bestMatch_no_update (md : SMap) :
    ∀ (l : List Configuration) (b : Option Configuration) (s : Nat),
      (∀ c ∈ l, configScore md c ≤ s) → bestMatch md b s l = (b, s) := by
  intro l
  induction l with
  | nil => intro b s _; rfl
  | cons cfg rest ih =>
    intro b s h
    have hc : configScore md cfg ≤ s := h cfg (by simp)
    simp only [bestMatch]
    rw [if_neg (Nat.not_lt.mpr hc)]
    exact ih b s (fun c hm => h c (by simp [hm]))

/-- When one source in the remainder scores strictly above the running best
score and strictly above every other source, the scan ends on it. -/
theorem bestMatch_unique_max (md : SMap) :
    ∀ (l : List Configuration) (c : Configuration) (b : Option Configuration)
      (s : Nat),
      c ∈ l → s < configScore md c →
      (∀ c' ∈ l, c' ≠ c → configScore md c' < configScore md c) →
      (bestMatch md b s l).1 = some c := by
  intro l
  induction l with
  | nil =>
    intro c b s hc
    simp at hc
  | cons x rest ih =>
    intro c b s hc hs hmax
    by_cases hx : x = c
    · subst hx
      simp only [bestMatch]
      rw [if_pos hs]
      rw [bestMatch_no_update md rest (some x) (configScore md x) ?_]
      · intro y hy
        by_cases hyc : y = x
        · subst hyc
          exact Nat.le_refl _
        · exact Nat.le_of_lt (hmax y (by simp [hy]) hyc)
    · have hcrest : c ∈ rest := by
        rcases List.mem_cons.mp hc with h | h
        · exact absurd h.symm hx
        · exact h
      have hxlt : configScore md x < configScore md c := hmax x (by simp) hx
      simp only [bestMatch]
      by_cases hcond : s < configScore md x
      · rw [if_pos hcond]
        exact ih c (some x) _ hcrest hxlt
          (fun y hy hyne => hmax y (by simp [hy]) hyne)
      · rw [if_neg hcond]
        exact ih c b s hcrest hs
          (fun y hy hyne => hmax y (by simp [hy]) hyne)

/-- C5: the resolver returns the source with the strictly highest positive
score; when every source scores zero it returns the default source through
the explicit fallback, and with no default it reports the not-found error.
Concretely, against sources `A{env:prod}`, `B{env:staging}` and default
`D{}`, metadata `{env:prod}` resolves to `A`, while `{env:qa}` and `{}`
resolve to `D`. -/
theorem resolver_selects_strictly_highest_score (p : ProviderState)
    (md : SMap) (c d : Configuration) :
    (c ∈ p.configurations → 0 < configScore md c →
      (∀ c' ∈ p.configurations, c' ≠ c →
        configScore md c' < configScore md c) →
      matchConfiguration p.configurations p.defaultID md = some c)
    ∧ ((∀ c' ∈ p.configurations, configScore md c' = 0) → p.defaultID ≠ "" →
        p.configurations.find? (fun x => x.id == p.defaultID) = some d →
        matchConfiguration p.configurations p.defaultID md = some d)
    ∧ ((∀ c' ∈ p.configurations, configScore md c' = 0) → p.defaultID = "" →
        GetConfig p md = .error "no configuration matched metadata")
    ∧ matchConfiguration exampleState.configurations exampleState.defaultID
        [("env", "prod")] = some cfgAResolved
    ∧ matchConfiguration exampleState.configurations exampleState.defaultID
        [("env", "qa")] = some cfgDResolved
    ∧ matchConfiguration exampleState.configurations exampleState.defaultID
        [] = some cfgDResolved := by
  refine ⟨?_, ?_, ?_, rfl, rfl, rfl⟩
  · intro hc hpos hmax
    have hb := bestMatch_unique_max md p.configurations c none 0 hc hpos hmax
    unfold matchConfiguration
    rw [hb]
  · intro hall hne hfind
    have hb := bestMatch_no_update md p.configurations none 0
      (fun c' hc' => Nat.le_of_eq (hall c' hc'))
    unfold matchConfiguration
    rw [hb]
    simp only [Option.some.injEq]
    rw [if_pos (by simpa using hne)]
    exact hfind
  · intro hall hempty
    have hb := bestMatch_no_update md p.configurations none 0
      (fun c' hc' => Nat.le_of_eq (hall c' hc'))
    have hm : matchConfiguration p.configurations p.defaultID md = none := by
      unfold matchConfiguration
      rw [hb]
      simp [hempty]
    unfold GetConfig
    rw [hm]

/-- Witness for C5: the three concrete resolutions of the worked example,
plus the not-found error when the same sources carry no default. -/
theorem resolver_selects_strictly_highest_score_witness :
    matchConfiguration exampleState.configurations exampleState.defaultID
      [("env", "prod")] = some cfgAResolved
    ∧ matchConfiguration exampleState.configurations exampleState.defaultID
      [("env", "qa")] = some cfgDResolved
    ∧ GetConfig noDefaultState [("env", "qa")]
      = .error "no configuration matched metadata" :=
  ⟨(resolver_selects_strictly_highest_score exampleState [("env", "prod")]
      cfgAResolved cfgDResolved).1 (by decide) (by decide) (by decide),
   (resolver_selects_strictly_highest_score exampleState [("env", "qa")]
      cfgAResolved cfgDResolved).2.1 (by decide) (by decide) (by decide),
   (resolver_selects_strictly_highest_score noDefaultState [("env", "qa")]
      cfgAResolved cfgDResolved).2.2.1 (by decide) (by decide)⟩

/-- C10: a request pair whose value is the empty string counts as a score
point against every source that does not declare that key at all, because the
Go map lookup `cfg.Metadata[k]` yields the zero value `""` for a missing key
and `"" == ""` holds.  Concretely, against the worked example's sources the
request `{foo:""}` is resolved by score to `A{env:prod}` (which does not
declare `foo`) rather than falling through to the default source `D`. -/
theorem empty_value_matches_undeclared_key (md : SMap) (cfg : Configuration)
    (k : String) :
    ((k, "") ∈ md → mapHasKey cfg.metadata k = false → 1 ≤ configScore md cfg)
    ∧ matchConfiguration exampleState.configurations exampleState.defaultID
        [("foo", "")] = some cfgAResolved := by
  constructor
  · intro hmem hnk
    have hget : mapGet cfg.metadata k = "" := by
      unfold mapGet
      unfold mapHasKey at hnk
      rcases halg : alGet? cfg.metadata k with _ | v
      · rfl
      · rw [halg] at hnk
        simp at hnk
    induction md with
    | nil => simp at hmem
    | cons q rest ih =>
      rcases List.mem_cons.mp hmem with h | h
      · rw [← h]
        unfold configScore
        rw [hget]
        simp
      · have := ih h
        unfold configScore
        rcases q with ⟨qk, qv⟩
        split <;> omega
  · rfl

/-- Witness for C10: the pair `("foo", "")` is in the request `{foo:""}` and
source `A` does not declare `foo`, so `A` scores at least one. -/
theorem empty_value_matches_undeclared_key_witness :
    1 ≤ configScore [("foo", "")] cfgAResolved
    ∧ matchConfiguration exampleState.configurations exampleState.defaultID
        [("foo", "")] = some cfgAResolved :=
  ⟨(empty_value_matches_undeclared_key [("foo", "")] cfgAResolved "foo").1
      (by decide) (by decide),
   (empty_value_matches_undeclared_key [("foo", "")] cfgAResolved "foo").2⟩

/-- Concatenation of strings concatenates their character lists. -/
theorem strData_append (s t : String) : (s ++ t).data = s.data ++ t.data := by
  rcases s with ⟨a⟩
  rcases t with ⟨b⟩
  rfl

/-- A join of a non-empty list whose head is non-empty is non-empty. -/
theorem strJoin_cons_data_nil (sep x : String) (rest : List String)
    (h : (strJoin sep (x :: rest)).data = []) : x.data = [] := by
  cases rest with
  | nil => exact h
  | cons y ys =>
    rw [show strJoin sep (x :: y :: ys) = x ++ sep ++ strJoin sep (y :: ys)
        from rfl] at h
    rw [strData_append, strData_append] at h
    rcases List.append_eq_nil.mp h with ⟨h1, _⟩
    rcases List.append_eq_nil.mp h1 with ⟨h2, _⟩
    exact h2

/-- A derived cache key is never the empty string: the empty map derives the
literal `"default"`, and a non-empty map derives the lower-casing of a join
whose first element contains the character `=`. -/
theorem buildCacheKey_ne_empty (m : SMap) : BuildCacheKey m ≠ "" := by
  unfold BuildCacheKey
  rcases m with _ | ⟨q, rest⟩
  · simp
  · rw [if_neg (by simp)]
    intro hcontra
    have hdata : ((strJoin "&"
        ((q :: rest).map (fun p => p.1 ++ "=" ++ p.2))).data.map charLower)
        = [] := congrArg String.data hcontra
    rw [List.map_eq_nil_iff, List.map_cons] at hdata
    have hq := strJoin_cons_data_nil _ _ _ hdata
    rw [strData_append, strData_append] at hq
    rcases List.append_eq_nil.mp hq with ⟨h1, _⟩
    rcases List.append_eq_nil.mp h1 with ⟨_, h2⟩
    exact absurd h2 (by simp)

/-- If the ids already seen together with the keys still to be derived
contain a repetition, the `initialize` loop ends in a duplicate-id error and
never stamps `lastReload` — provided every remaining directory loads, so no
load error fires first. -/
theorem initLoop_duplicate (fs : String → List FSFile) (now : Nat) :
    ∀ (rest : List Configuration) (p : ProviderState) (seen : List String)
      (done : List Configuration),
      (∀ c ∈ rest, ∃ b, loadConfigFromDirectory (fs c.directory) = .ok b) →
      seen.Nodup →
      ¬ (seen ++ rest.map (fun c => BuildCacheKey c.metadata)).Nodup →
      (∃ k, (initLoop fs now p seen done rest).2
          = some ("duplicate configuration id: " ++ k))
      ∧ (initLoop fs now p seen done rest).1.lastReload = p.lastReload := by
  intro rest
  induction rest with
  | nil =>
    intro p seen done _ hnodup hdup
    exact absurd (by simpa using hnodup) hdup
  | cons cfg rest ih =>
    intro p seen done hload hnodup hdup
    have hkne : (BuildCacheKey cfg.metadata == "") = false :=
      beq_eq_false_iff_ne.mpr (buildCacheKey_ne_empty cfg.metadata)
    simp only [initLoop]
    rw [hkne]
    simp only [Bool.false_eq_true, if_false]
    rcases hseen : seen.contains (BuildCacheKey cfg.metadata) with _ | _
    · simp only [Bool.false_eq_true, if_false]
      have hnotmem : BuildCacheKey cfg.metadata ∉ seen := by
        simpa using hseen
      obtain ⟨b, hb⟩ := hload cfg (by simp)
      rw [hb]
      have hnodup' : (BuildCacheKey cfg.metadata :: seen).Nodup :=
        List.nodup_cons.mpr ⟨hnotmem, hnodup⟩
      have hdup' : ¬ ((BuildCacheKey cfg.metadata :: seen)
          ++ rest.map (fun c => BuildCacheKey c.metadata)).Nodup := by
        intro hn
        exact hdup (List.perm_middle.nodup_iff.mpr hn)
      constructor
      · exact (ih _ _ _ (fun c hc => hload c (by simp [hc])) hnodup' hdup').1
      · rw [(ih _ _ _ (fun c hc => hload c (by simp [hc])) hnodup' hdup').2]
        split <;> rfl
    · simp only [if_true]
      refine ⟨⟨BuildCacheKey cfg.metadata, ?_⟩, ?_⟩
      · rfl
      · trivial

/-- C6: building the index from a configuration list in which two sources
derive the same cache key — in particular two sources with identical
declared metadata — fails with the duplicate-id validation error, and the
build never reaches the final publish step that stamps `lastReload` (the
load hypothesis rules out a directory failing first). -/
theorem duplicate_derived_keys_rejected (fs : String → List FSFile)
    (now : Nat) (p : ProviderState)
    (hload : ∀ c ∈ p.configurations,
      ∃ b, loadConfigFromDirectory (fs c.directory) = .ok b)
    (hdup : ¬ (p.configurations.map
      (fun c => BuildCacheKey c.metadata)).Nodup) :
    (∃ k, (initProvider fs now p).2
        = some ("duplicate configuration id: " ++ k))
    ∧ (initProvider fs now p).1.lastReload = p.lastReload := by
  unfold initProvider
  have := initLoop_duplicate fs now p.configurations { p with cache := [] }
    [] [] hload (by simp) (by simpa using hdup)
  exact ⟨this.1, this.2⟩

/-- Witness for C6: two sources declaring the identical metadata map, with
loadable directories, make the index build fail with the duplicate error on
the shared key `env=prod` and leave `lastReload` unstamped. -/
theorem duplicate_derived_keys_rejected_witness :
    (∃ k, (initProvider emptyFS 7
        (freshState [cfgA, { cfgA with directory := "/configs/other" }])).2
        = some ("duplicate configuration id: " ++ k))
    ∧ (initProvider emptyFS 7
        (freshState [cfgA, { cfgA with directory := "/configs/other" }])).1.lastReload
        = (freshState [cfgA, { cfgA with directory := "/configs/other" }]).lastReload :=
  duplicate_derived_keys_rejected emptyFS 7
    (freshState [cfgA, { cfgA with directory := "/configs/other" }])
    (fun c _ => ⟨emptyBundle, rfl⟩) (by decide)

end GomaProvider
